import Mathlib

/-!
Verification of the agent registry and health-reconciliation subsystem
(`src/supervisor/registry.py`).

The durable registry file is a JSON array of objects.  An object parsed by
the runtime is modelled as an ordered association list of key/value pairs
(`Entry`); the runtime's `dict.get(k)` returns the JSON `null` both when the
key is absent and when its value is `null`, which `entryGet` reproduces,
while `k in d` tests key presence only (`hasKey`).

File and network I/O is made explicit: the durable store is a `DiskState`
(missing, unreadable, or a list of entries), a probe outcome is a
`ProbeResult` (transport failure/timeout, or an HTTP response whose body
either parsed to a JSON object or did not), and a write failure is a boolean
parameter.  Exceptions are modelled with `Except`.
-/

namespace Registry

/-- A primitive JSON value as held in a parsed registry entry. -/
inductive JVal where
  | s (v : String)
  | n (v : Int)
  | b (v : Bool)
  | null
deriving DecidableEq, Repr

/-- A parsed JSON object: an ordered association list (runtime dicts keep
insertion order, which the JSON writer preserves). -/
abbrev Entry := List (String × JVal)

/-- `k in d` in the runtime: key presence. -/
def hasKey (e : Entry) (k : String) : Bool :=
  e.any (fun p => p.1 == k)

/-- `d.get(k)` in the runtime: first value bound to `k`, or JSON null when
the key is absent (the runtime conflates the absent-key default `None` with
a parsed JSON `null`). -/
def entryGet (e : Entry) (k : String) : JVal :=
  match e.find? (fun p => p.1 == k) with
  | some p => p.2
  | none => .null

/-- `d[k] = v` in the runtime: update the (unique) binding of `k` in place,
preserving its position, or append a new binding at the end. -/
def setKey : Entry → String → JVal → Entry
  | [], k, v => [(k, v)]
  | p :: rest, k, v =>
      if p.1 == k then (k, v) :: rest else p :: setKey rest k v

/-- An in-memory Agent record.  Modelled from the spec: `shared/models.py`
(the pydantic `Agent` model) is not part of the supplied sources; per the
spec's data model an agent has an `id`, a `url` and a `status` whose default
is `unknown` when the entry carries none, and `registry.py`'s own comment
states that a `status` present in the file is used as the initial value. -/
structure Agent where
  id : JVal
  url : JVal
  status : JVal
deriving DecidableEq, Repr

/-- `Agent(**data)` as invoked by `load_registry` on an entry that passed
the `id`/`url` presence check. -/
def mkAgent (e : Entry) : Agent :=
  { id := entryGet e "id"
    url := entryGet e "url"
    status := if hasKey e "status" then entryGet e "status" else .s "unknown" }

/-- The `load_registry` validity test: both required keys are present
(`'id' not in data or 'url' not in data` skips the entry). -/
def entryValid (e : Entry) : Bool :=
  hasKey e "id" && hasKey e "url"

/-- State of the durable registry file as seen by one open/read. -/
inductive DiskState where
  | missing
  | unreadable
  | entries (es : List Entry)
deriving DecidableEq, Repr

/-- Result of `load_registry`: the in-memory agents, the entries skipped
with a per-entry warning diagnostic, and whether the file-not-found error
diagnostic was recorded. -/
structure LoadOutcome where
  agents : List Agent
  skipped : List Entry
  errorDiag : Bool
deriving DecidableEq, Repr

/-- `load_registry` (src/supervisor/registry.py lines 16-34).  A missing
file is caught (`except FileNotFoundError`): the registry is set empty and
an error diagnostic logged.  Any other read/parse failure is not caught and
propagates (`.error`).  On a successful parse, entries missing `id` or
`url` are skipped with a warning; the rest become agents in order. -/
def loadRegistry : DiskState → Except String LoadOutcome
  | .missing => .ok { agents := [], skipped := [], errorDiag := true }
  | .unreadable => .error "registry file unreadable"
  | .entries es =>
      .ok { agents := (es.filter entryValid).map mkAgent
            skipped := es.filter (fun e => !entryValid e)
            errorDiag := false }

/-- Outcome of one HTTP probe of an agent's `/health` endpoint:
`failure` is any exception out of `client.get` (timeout, connection
refused); `response code body` is a completed HTTP exchange, where `body`
is the parsed JSON object, or `none` when `response.json()` (or `.get` on a
non-object result) raises. -/
inductive ProbeResult where
  | failure
  | response (code : Nat) (body : Option Entry)
deriving DecidableEq, Repr

/-- Status classification performed inside `health_check_agents`
(lines 43-55): parseable object body requires code 200 and a
`status == "healthy"` field; an unparseable body falls back to
`is_healthy = response.status_code == 200`; an exception from the request
itself yields offline. -/
def classifySweep : ProbeResult → JVal
  | .failure => .s "offline"
  | .response code body =>
      match body with
      | some j =>
          if code == 200 && (entryGet j "status" == .s "healthy") then .s "healthy"
          else .s "offline"
      | none => if code == 200 then .s "healthy" else .s "offline"

/-- Status classification performed inside `check_agent_live_status`
(lines 106-120); same decision structure as the sweep's. -/
def classifyLive : ProbeResult → JVal
  | .failure => .s "offline"
  | .response code body =>
      match body with
      | some j =>
          if code == 200 && (entryGet j "status" == .s "healthy") then .s "healthy"
          else .s "offline"
      | none => if code == 200 then .s "healthy" else .s "offline"

/-- Modelled from the spec: the Health Prober classification policy of
section 4.2 — transport failure, timeout or non-2xx is offline; a 2xx whose
parseable body self-reports healthy is healthy; a 2xx whose body is
unparseable or lacks the field is offline. -/
def specClassify : ProbeResult → JVal
  | .failure => .s "offline"
  | .response code body =>
      if 200 ≤ code ∧ code ≤ 299 then
        match body with
        | some j =>
            if entryGet j "status" == .s "healthy" then .s "healthy" else .s "offline"
        | none => .s "offline"
      else .s "offline"

/-- The `status_map` dict comprehension `{a.id: a.status for a in _agents}`
of `save_registry_statuses`: iteration in list order, later bindings
overwriting earlier ones, so a lookup sees the last agent bearing the id. -/
def statusLookup (agents : List Agent) (aid : JVal) : Option JVal :=
  (agents.reverse.find? (fun a => a.id == aid)).map (fun a => a.status)

/-- One iteration of the overlay loop of `save_registry_statuses`
(lines 80-83): `aid = entry.get('id'); if aid in status_map:
entry['status'] = status_map[aid]`. -/
def overlayEntry (agents : List Agent) (e : Entry) : Entry :=
  match statusLookup agents (entryGet e "id") with
  | some stv => setKey e "status" stv
  | none => e

/-- The body of `save_registry_statuses` up to the point an exception can
escape: the fresh read of the registry file (raises when the file is
missing or unreadable), the overlay, and the write (raises when the write
fails; the single write is atomic, so a failed write leaves the file as it
was). -/
def saveCore (agents : List Agent) (disk : DiskState) (writeFails : Bool) :
    Except String DiskState :=
  match disk with
  | .missing => .error "registry file missing"
  | .unreadable => .error "registry file unreadable"
  | .entries es =>
      if writeFails then .error "write failed"
      else .ok (.entries (es.map (overlayEntry agents)))

/-- `save_registry_statuses` (lines 66-88): the whole body sits in a
`try/except Exception` that logs the error and returns, so the caller
always regains control; the pair's second component records whether the
persist succeeded (`true`) or was merely logged (`false`). -/
def saveRegistryStatuses (agents : List Agent) (disk : DiskState)
    (writeFails : Bool) : DiskState × Bool :=
  match saveCore agents disk writeFails with
  | .ok d => (d, true)
  | .error _ => (disk, false)

/-- The in-memory loop of `health_check_agents` (lines 38-55): every agent
in order gets its status replaced by the classification of its probe
outcome (the probe oracle is keyed by the agent's url). -/
def sweepAgents (probe : JVal → ProbeResult) (agents : List Agent) : List Agent :=
  agents.map (fun a => { a with status := classifySweep (probe a.url) })

/-- The whole mutable state touched by the registry module: the in-memory
agent list (`_agents`) and the durable file. -/
structure RegState where
  agents : List Agent
  disk : DiskState
deriving DecidableEq, Repr

/-- `health_check_agents` (lines 36-63): probe and reclassify every agent,
then best-effort persist (its own failures are swallowed by
`save_registry_statuses`, and the call is additionally wrapped in a
`try/except` by the sweep). -/
def healthCheckAgents (probe : JVal → ProbeResult) (st : RegState)
    (writeFails : Bool) : RegState :=
  { agents := sweepAgents probe st.agents
    disk := (saveRegistryStatuses (sweepAgents probe st.agents) st.disk writeFails).1 }

/-- `get_agent` (lines 93-97): linear scan returning the first agent whose
`id` equals the queried string, else `None`. -/
def getAgent (agents : List Agent) (aid : String) : Option Agent :=
  agents.find? (fun a => a.id == JVal.s aid)

/-- In-place mutation `agent.status = v` of the object returned by
`get_agent`: only the first agent whose id matches is updated. -/
def setStatusFirst : List Agent → String → JVal → List Agent
  | [], _, _ => []
  | a :: rest, aid, v =>
      if a.id == JVal.s aid then { a with status := v } :: rest
      else a :: setStatusFirst rest aid v

/-- `check_agent_live_status` (lines 100-128): unknown id returns
`not_found` before any client is built and before any file access; a known
agent is probed once, its status reassigned from the classification,
statuses are best-effort persisted (`except: pass`), and the fresh status
is returned. -/
def checkAgentLiveStatus (probe : JVal → ProbeResult) (aid : String)
    (st : RegState) (writeFails : Bool) : JVal × RegState :=
  match getAgent st.agents aid with
  | none => (.s "not_found", st)
  | some a =>
      let newStatus := classifyLive (probe a.url)
      let agents' := setStatusFirst st.agents aid newStatus
      (newStatus,
       { agents := agents'
         disk := (saveRegistryStatuses agents' st.disk writeFails).1 })

/-- Scheduling events of one sweep: a probe request being issued for an
agent, its result being awaited to completion, and the persistence flush. -/
inductive SweepEvent where
  | issue (id : JVal)
  | resolve (id : JVal)
  | persist
deriving DecidableEq, Repr

/-- Event trace of `health_check_agents`: the `for` loop executes
`response = await client.get(...)` for one agent and only then proceeds to
the next iteration, so each probe resolves before the next is issued; the
persistence flush follows the loop. -/
def sweepTrace : List Agent → List SweepEvent
  | [] => [.persist]
  | a :: rest => .issue a.id :: .resolve a.id :: sweepTrace rest

/-- Modelled from the spec: the scheduling model of section 5 — fire out
all probes, then await all results, then persist. -/
def concurrentTraceSpec (agents : List Agent) : List SweepEvent :=
  agents.map (fun a => .issue a.id) ++ agents.map (fun a => .resolve a.id)
    ++ [.persist]

/-- A probe oracle under which every request raises (agent unreachable). -/
def probeAllFail : JVal → ProbeResult := fun _ => .failure

/-- A probe oracle under which every request completes with HTTP 200 and a
body that fails to parse as a JSON object. -/
def probe200BadBody : JVal → ProbeResult := fun _ => .response 200 none

/-- A sample agent used to evaluate the operations at concrete inputs. -/
def agentA : Agent := { id := .s "a", url := .s "http://x", status := .s "unknown" }

/-- A second sample agent with a distinct id. -/
def agentB : Agent := { id := .s "b", url := .s "http://y", status := .s "unknown" }

/-- A sample agent bearing id `a` with a healthy status. -/
def agentAH : Agent := { id := .s "a", url := .s "http://x", status := .s "healthy" }

/-- A sample agent duplicating id `a` (distinct url, offline status). -/
def agentA2 : Agent := { id := .s "a", url := .s "http://x2", status := .s "offline" }

/-- A sample durable file: one entry matching agent `a` and carrying an
opaque extra field, one entry (`z`) not loaded in memory. -/
def sampleDisk : DiskState :=
  .entries [[("id", .s "a"), ("url", .s "http://x"), ("cap", .s "vision")],
            [("id", .s "z"), ("status", .s "old")]]

/-- A sample registry state holding agent `a` over `sampleDisk`. -/
def sampleState : RegState := { agents := [agentA], disk := sampleDisk }

/-! ### Helper lemmas about entries and the status overlay -/

theorem entryGet_nil (k : String) : entryGet ([] : Entry) k = .null := rfl

theorem entryGet_cons (p : String × JVal) (rest : Entry) (k : String) :
    entryGet (p :: rest) k = if p.1 = k then p.2 else entryGet rest k := by
  by_cases h : p.1 = k
  · unfold entryGet
    rw [List.find?_cons_of_pos _ (by simpa using h)]
    simp [h]
  · unfold entryGet
    rw [List.find?_cons_of_neg _ (by simpa using h)]
    simp [h]

theorem entryGet_setKey_self (e : Entry) (k : String) (v : JVal) :
    entryGet (setKey e k v) k = v := by
  induction e with
  | nil => simp [setKey, entryGet_cons, entryGet_nil]
  | cons p rest ih =>
      by_cases h : p.1 = k
      · simp [setKey, h, entryGet_cons]
      · simp [setKey, beq_iff_eq, h, entryGet_cons, ih]

theorem entryGet_setKey_ne (e : Entry) (k k' : String) (v : JVal)
    (hk : k' ≠ k) : entryGet (setKey e k v) k' = entryGet e k' := by
  induction e with
  | nil => simp [setKey, entryGet_cons, entryGet_nil, Ne.symm hk]
  | cons p rest ih =>
      by_cases h : p.1 = k
      · subst h
        simp [setKey, entryGet_cons, Ne.symm hk]
      · simp [setKey, beq_iff_eq, h, entryGet_cons, ih]

theorem filter_setKey (e : Entry) (k : String) (v : JVal) :
    (setKey e k v).filter (fun p => !(p.1 == k))
      = e.filter (fun p => !(p.1 == k)) := by
  induction e with
  | nil => simp [setKey]
  | cons p rest ih =>
      by_cases h : p.1 = k
      · simp [setKey, h]
      · simp [setKey, beq_iff_eq, h, ih]

theorem setKey_setKey_same (e : Entry) (k : String) (v : JVal) :
    setKey (setKey e k v) k v = setKey e k v := by
  induction e with
  | nil => simp [setKey]
  | cons p rest ih =>
      by_cases h : p.1 = k
      · simp [setKey, h]
      · simp [setKey, beq_iff_eq, h, ih]

theorem overlayEntry_id (agents : List Agent) (e : Entry) :
    entryGet (overlayEntry agents e) "id" = entryGet e "id" := by
  unfold overlayEntry
  cases statusLookup agents (entryGet e "id") with
  | none => rfl
  | some stv =>
      exact entryGet_setKey_ne e "status" "id" stv (by decide)

theorem overlayEntry_idem (agents : List Agent) (e : Entry) :
    overlayEntry agents (overlayEntry agents e) = overlayEntry agents e := by
  unfold overlayEntry
  cases h : statusLookup agents (entryGet e "id") with
  | none => simp [overlayEntry, h]
  | some stv =>
      have hid : entryGet (setKey e "status" stv) "id" = entryGet e "id" :=
        entryGet_setKey_ne e "status" "id" stv (by decide)
      simp [overlayEntry, hid, h, setKey_setKey_same]

theorem length_filter_add_length_filter_not {α : Type} (p : α → Bool)
    (l : List α) :
    (l.filter p).length + (l.filter (fun x => !p x)).length = l.length := by
  induction l with
  | nil => rfl
  | cons x xs ih =>
      by_cases h : p x <;> simp [List.filter_cons, h] <;> omega

theorem saveRegistryStatuses_idem (agents : List Agent) (disk : DiskState)
    (wf : Bool) :
    (saveRegistryStatuses agents ((saveRegistryStatuses agents disk wf).1) wf).1
      = (saveRegistryStatuses agents disk wf).1 := by
  cases disk with
  | missing => rfl
  | unreadable => rfl
  | entries es =>
      cases wf with
      | true => rfl
      | false =>
          show DiskState.entries
              ((es.map (overlayEntry agents)).map (overlayEntry agents))
            = DiskState.entries (es.map (overlayEntry agents))
          rw [List.map_map]
          exact congrArg DiskState.entries
            (List.map_congr_left (fun e _ => overlayEntry_idem agents e))

theorem getAgent_first (agents : List Agent) (aid : String) (i : Nat)
    (a : Agent) (ha : agents[i]? = some a) (hid : a.id = JVal.s aid)
    (hfirst : ∀ j b, j < i → agents[j]? = some b → b.id ≠ JVal.s aid) :
    getAgent agents aid = some a := by
  induction agents generalizing i with
  | nil => simp at ha
  | cons x rest ih =>
      cases i with
      | zero =>
          simp only [List.getElem?_cons_zero, Option.some.injEq] at ha
          subst ha
          unfold getAgent
          rw [List.find?_cons_of_pos _ (by simp [hid])]
      | succ i' =>
          have hx : x.id ≠ JVal.s aid :=
            hfirst 0 x (Nat.succ_pos _) (by simp)
          unfold getAgent
          rw [List.find?_cons_of_neg _ (by simp [hx])]
          exact ih i' (by simpa using ha)
            (fun j b hj hb =>
              hfirst (j + 1) b (Nat.succ_lt_succ hj) (by simpa using hb))

theorem statusLookup_last (agents : List Agent) (t : JVal) (i : Nat)
    (a : Agent) (ha : agents[i]? = some a) (hid : a.id = t)
    (hlast : ∀ j b, i < j → agents[j]? = some b → b.id ≠ t) :
    statusLookup agents t = some a.status := by
  induction agents generalizing i with
  | nil => simp at ha
  | cons x rest ih =>
      unfold statusLookup
      rw [List.reverse_cons, List.find?_append]
      cases i with
      | zero =>
          simp only [List.getElem?_cons_zero, Option.some.injEq] at ha
          subst ha
          have hnone : rest.reverse.find? (fun b => b.id == t) = none := by
            rw [List.find?_eq_none]
            intro b hb
            obtain ⟨j, hj⟩ := List.getElem?_of_mem (List.mem_reverse.mp hb)
            have hne := hlast (j + 1) b (Nat.succ_pos _) (by simpa using hj)
            simp [hne]
          rw [hnone]
          simp only [Option.none_or]
          rw [List.find?_cons_of_pos _ (by simp [hid])]
          rfl
      | succ i' =>
          have hih : statusLookup rest t = some a.status :=
            ih i' (by simpa using ha)
              (fun j b hj hb =>
                hlast (j + 1) b (Nat.succ_lt_succ hj) (by simpa using hb))
          unfold statusLookup at hih
          rw [Option.map_eq_some'] at hih
          obtain ⟨b0, hb0, hbs⟩ := hih
          rw [hb0]
          simpa using hbs

/-! ### Claim theorems -/

/-- C1: the probe classification of both the Reconciliation Sweep and the
Live Status Query is claimed to send a 2xx response with an unparseable
body to `offline` (a bare 2xx never sufficing for `healthy`).  The code's
fallback branch instead classifies an HTTP 200 with an unparseable body as
`healthy`, contradicting the claim (and the code's own comment); the
spec-side classifier sends the same probe outcome to `offline`. -/
theorem c1_bare_200_unparseable_healthy :
    classifySweep (.response 200 none) = .s "healthy"
      ∧ classifyLive (.response 200 none) = .s "healthy"
      ∧ specClassify (.response 200 none) = .s "offline" := by
  refine ⟨rfl, rfl, ?_⟩
  decide

/-- C2 counterexample: loading a durable entry that carries
`status: "healthy"` yields an in-memory record whose status is `healthy`,
not `unknown`, before any probe has run — refuting the claim that every
loaded record starts as `unknown` regardless of the on-disk value. -/
theorem c2_counterexample_status_seeded :
    loadRegistry (.entries
        [[("id", JVal.s "a"), ("url", JVal.s "u"), ("status", JVal.s "healthy")]])
      = .ok { agents := [{ id := JVal.s "a", url := JVal.s "u",
                           status := JVal.s "healthy" }],
              skipped := [], errorDiag := false }
      ∧ JVal.s "healthy" ≠ JVal.s "unknown" := by
  exact ⟨rfl, by decide⟩

/-- C2 (amended): after `load()` and before any probe, the i-th loaded
record comes from the i-th valid entry, and its status is the entry's
on-disk `status` value when that field is present, and `unknown` only
otherwise. -/
theorem c2_load_initial_status (es : List Entry) (out : LoadOutcome)
    (h : loadRegistry (.entries es) = .ok out) (i : Nat) (e : Entry)
    (he : (es.filter entryValid)[i]? = some e) :
    out.agents[i]? = some (mkAgent e)
      ∧ (mkAgent e).status
          = (if hasKey e "status" then entryGet e "status" else JVal.s "unknown")
      ∧ (hasKey e "status" = false → (mkAgent e).status = JVal.s "unknown") := by
  have hout : out = { agents := (es.filter entryValid).map mkAgent,
                      skipped := es.filter (fun x => !entryValid x),
                      errorDiag := false } :=
    Except.ok.inj (h.symm.trans rfl)
  subst hout
  refine ⟨?_, rfl, ?_⟩
  · simp [List.getElem?_map, he]
  · intro hs
    simp [mkAgent, hs]

/-- C2 witness: amended theorem evaluated on a one-entry file without a
`status` field. -/
theorem c2_load_initial_status_witness :
    ({ agents := [{ id := JVal.s "a", url := JVal.s "u",
                    status := JVal.s "unknown" }],
       skipped := [], errorDiag := false } : LoadOutcome).agents[0]?
        = some (mkAgent [("id", JVal.s "a"), ("url", JVal.s "u")])
      ∧ (mkAgent [("id", JVal.s "a"), ("url", JVal.s "u")]).status
          = JVal.s "unknown" :=
  ⟨(c2_load_initial_status [[("id", JVal.s "a"), ("url", JVal.s "u")]]
      { agents := [{ id := JVal.s "a", url := JVal.s "u",
                     status := JVal.s "unknown" }],
        skipped := [], errorDiag := false } rfl 0
      [("id", JVal.s "a"), ("url", JVal.s "u")] rfl).1,
   (c2_load_initial_status [[("id", JVal.s "a"), ("url", JVal.s "u")]]
      { agents := [{ id := JVal.s "a", url := JVal.s "u",
                     status := JVal.s "unknown" }],
        skipped := [], errorDiag := false } rfl 0
      [("id", JVal.s "a"), ("url", JVal.s "u")] rfl).2.2 rfl⟩

/-- C3 counterexample: an unreadable (present but unparseable) durable
source makes `load()` raise to its caller instead of yielding an empty
registry — refuting the claim that a missing or unreadable source is
non-fatal. -/
theorem c3_counterexample_unreadable_raises :
    loadRegistry DiskState.unreadable = .error "registry file unreadable" := rfl

/-- C3 (amended): only a missing durable source is non-fatal — `load()`
then raises nothing, leaves the registry empty and records the error
diagnostic; an unreadable source propagates the exception, while any
successfully read source never raises. -/
theorem c3_missing_nonfatal :
    loadRegistry DiskState.missing
        = .ok { agents := [], skipped := [], errorDiag := true }
      ∧ loadRegistry DiskState.unreadable = .error "registry file unreadable"
      ∧ ∀ es : List Entry, ∃ out, loadRegistry (.entries es) = .ok out :=
  ⟨rfl, rfl, fun _ => ⟨_, rfl⟩⟩

/-- C7: the claim says every probe failure — including an unparseable body —
is classified `offline` by `checkLive`.  Probing registered agent `a`
whose `/health` endpoint answers HTTP 200 with a body that fails to parse,
`check_agent_live_status` instead returns (and stores) `healthy`. -/
theorem c7_live_bad_body_healthy :
    (checkAgentLiveStatus probe200BadBody "a" sampleState false).1
        = JVal.s "healthy"
      ∧ ((checkAgentLiveStatus probe200BadBody "a" sampleState false).2).agents
        = [agentAH] := by
  decide

/-- C4: `persistStatuses` on a readable source with a succeeding write
re-reads the disk entries and writes back exactly their per-entry overlay;
the overlay preserves entry count and order, keeps every non-status field
byte-identical (in place), leaves an entry whose id matches no loaded
record entirely untouched, and stamps the in-memory status onto every
matched entry. -/
theorem c4_persist_frame (agents : List Agent) (es : List Entry) (e : Entry)
    (stv : JVal) :
    saveRegistryStatuses agents (.entries es) false
        = (.entries (es.map (overlayEntry agents)), true)
      ∧ (es.map (overlayEntry agents)).length = es.length
      ∧ (overlayEntry agents e).filter (fun p => !(p.1 == "status"))
          = e.filter (fun p => !(p.1 == "status"))
      ∧ (statusLookup agents (entryGet e "id") = none →
          overlayEntry agents e = e)
      ∧ (statusLookup agents (entryGet e "id") = some stv →
          entryGet (overlayEntry agents e) "status" = stv) := by
  refine ⟨rfl, List.length_map _ _, ?_, ?_, ?_⟩
  · unfold overlayEntry
    cases statusLookup agents (entryGet e "id") with
    | none => rfl
    | some s0 => exact filter_setKey e "status" s0
  · intro h
    simp [overlayEntry, h]
  · intro h
    simp [overlayEntry, h, entryGet_setKey_self]

/-- C4 witness: the frame theorem evaluated on agent `a` (healthy) against
an entry bearing id `a` and an opaque field, and on the untouched entry
with unmatched id `z`. -/
theorem c4_persist_frame_witness :
    entryGet (overlayEntry [agentAH] [("id", JVal.s "a"), ("cap", JVal.s "vision")])
        "status" = JVal.s "healthy"
      ∧ overlayEntry [agentAH] [("id", JVal.s "z"), ("status", JVal.s "old")]
        = [("id", JVal.s "z"), ("status", JVal.s "old")] :=
  ⟨(c4_persist_frame [agentAH] [] [("id", JVal.s "a"), ("cap", JVal.s "vision")]
      (JVal.s "healthy")).2.2.2.2 rfl,
   (c4_persist_frame [agentAH] [] [("id", JVal.s "z"), ("status", JVal.s "old")]
      (JVal.s "healthy")).2.2.2.1 rfl⟩

/-- C5: loading a readable source skips exactly the entries missing a
required `id` or `url` (each landing in the skipped-with-diagnostic list),
never aborts, every loaded record comes from a valid entry, and the number
of loaded records is the number of input entries minus the number
skipped. -/
theorem c5_load_skips_invalid (es : List Entry) (out : LoadOutcome)
    (h : loadRegistry (.entries es) = .ok out) :
    (∀ e, e ∈ es → entryValid e = false → e ∈ out.skipped)
      ∧ (∀ a, a ∈ out.agents → ∃ e, e ∈ es ∧ entryValid e = true ∧ a = mkAgent e)
      ∧ out.agents.length + out.skipped.length = es.length
      ∧ out.agents.length = es.length - out.skipped.length := by
  have hout : out = { agents := (es.filter entryValid).map mkAgent,
                      skipped := es.filter (fun x => !entryValid x),
                      errorDiag := false } :=
    Except.ok.inj (h.symm.trans rfl)
  subst hout
  have hlen : (es.filter entryValid).length
      + (es.filter (fun x => !entryValid x)).length = es.length :=
    length_filter_add_length_filter_not entryValid es
  refine ⟨?_, ?_, ?_, ?_⟩
  · intro e he hv
    simp only [List.mem_filter]
    exact ⟨he, by simp [hv]⟩
  · intro a ha
    rcases List.mem_map.mp ha with ⟨e, hemem, hma⟩
    rcases List.mem_filter.mp hemem with ⟨hin, hval⟩
    exact ⟨e, hin, hval, hma.symm⟩
  · simpa using hlen
  · simp only [List.length_map]
    omega

/-- C5 witness: loading one invalid entry (missing `url`) and one valid
entry puts the invalid entry into the skipped list. -/
theorem c5_load_skips_invalid_witness :
    ([("id", JVal.s "a")] : Entry) ∈
      ({ agents := [{ id := JVal.s "b", url := JVal.s "u",
                      status := JVal.s "unknown" }],
         skipped := [[("id", JVal.s "a")]], errorDiag := false }
        : LoadOutcome).skipped :=
  (c5_load_skips_invalid
      [[("id", JVal.s "a")], [("id", JVal.s "b"), ("url", JVal.s "u")]]
      { agents := [{ id := JVal.s "b", url := JVal.s "u",
                     status := JVal.s "unknown" }],
        skipped := [[("id", JVal.s "a")]], errorDiag := false } rfl).1
    [("id", JVal.s "a")] (by decide) rfl

/-- C6: a read or write failure inside `persistStatuses` is swallowed —
the call returns control with the failure merely logged (flag `false`) and
the file as it was; and the in-memory statuses installed by the triggering
sweep or live query are exactly the swept/probed ones, independent of the
disk state and of whether the write fails (no rollback). -/
theorem c6_persist_failure_swallowed (agents : List Agent) (disk : DiskState)
    (wf : Bool) (probe : JVal → ProbeResult) (st : RegState) (aid : String)
    (a : Agent) :
    (∀ msg, saveCore agents disk wf = .error msg →
        saveRegistryStatuses agents disk wf = (disk, false))
      ∧ (healthCheckAgents probe st wf).agents = sweepAgents probe st.agents
      ∧ (getAgent st.agents aid = some a →
          ((checkAgentLiveStatus probe aid st wf).2).agents
            = setStatusFirst st.agents aid (classifyLive (probe a.url))) := by
  refine ⟨?_, rfl, ?_⟩
  · intro msg hmsg
    unfold saveRegistryStatuses
    rw [hmsg]
  · intro h
    simp [checkAgentLiveStatus, h]

/-- C6 witness: persisting over a missing file returns control with the
file unchanged and the failure logged, while a live query over the same
missing file still installs the probe's classification in memory. -/
theorem c6_persist_failure_swallowed_witness :
    saveRegistryStatuses [agentA] DiskState.missing false
        = (DiskState.missing, false)
      ∧ ((checkAgentLiveStatus probeAllFail "a"
            { agents := [agentA], disk := DiskState.missing } false).2).agents
        = setStatusFirst [agentA] "a" (classifyLive (probeAllFail agentA.url)) :=
  ⟨(c6_persist_failure_swallowed [agentA] DiskState.missing false probeAllFail
      sampleState "a" agentA).1 "registry file missing" rfl,
   (c6_persist_failure_swallowed [agentA] DiskState.missing false probeAllFail
      { agents := [agentA], disk := DiskState.missing } "a" agentA).2.2 rfl⟩

/-- C8: two consecutive Reconciliation Sweeps under an unchanged probe
oracle (and unchanged write behaviour) leave the in-memory statuses and
the on-disk registry after the second sweep identical to those after the
first. -/
theorem c8_sweep_idempotent (probe : JVal → ProbeResult) (st : RegState)
    (wf : Bool) :
    healthCheckAgents probe (healthCheckAgents probe st wf) wf
      = healthCheckAgents probe st wf := by
  have hA : sweepAgents probe (sweepAgents probe st.agents)
      = sweepAgents probe st.agents := by
    unfold sweepAgents
    rw [List.map_map]
    exact List.map_congr_left (fun a _ => rfl)
  show RegState.mk
      (sweepAgents probe (sweepAgents probe st.agents))
      ((saveRegistryStatuses (sweepAgents probe (sweepAgents probe st.agents))
        ((saveRegistryStatuses (sweepAgents probe st.agents) st.disk wf).1)
        wf).1)
    = RegState.mk (sweepAgents probe st.agents)
        ((saveRegistryStatuses (sweepAgents probe st.agents) st.disk wf).1)
  rw [hA, saveRegistryStatuses_idem]

/-- C9 counterexample: with two registered agents the sweep's event trace
interleaves issue and resolution per agent, and differs from the
fire-all-then-await-all trace the claim describes. -/
theorem c9_counterexample_not_concurrent :
    sweepTrace [agentA, agentB] ≠ concurrentTraceSpec [agentA, agentB] := by
  decide

/-- C9 (amended): within one sweep the probes are issued sequentially —
each agent's probe is awaited before the next agent's is issued, so the
trace matches the claimed fire-all-then-await-all shape only for registries
of at most one agent; the persistence flush does come strictly after every
probe event of the sweep. -/
theorem c9_sequential_trace (agents : List Agent) :
    (sweepTrace agents = concurrentTraceSpec agents ↔ agents.length ≤ 1)
      ∧ ∃ pre, sweepTrace agents = pre ++ [SweepEvent.persist]
          ∧ SweepEvent.persist ∉ pre := by
  refine ⟨⟨?_, ?_⟩, ?_⟩
  · intro h
    rcases agents with _ | ⟨a, _ | ⟨b, rest⟩⟩
    · simp
    · simp
    · exfalso
      simp [sweepTrace, concurrentTraceSpec] at h
  · intro h
    rcases agents with _ | ⟨a, _ | ⟨b, rest⟩⟩
    · rfl
    · rfl
    · simp only [List.length_cons] at h
      omega
  · induction agents with
    | nil => exact ⟨[], rfl, by simp⟩
    | cons a rest ih =>
        obtain ⟨pre, hpre, hmem⟩ := ih
        refine ⟨.issue a.id :: .resolve a.id :: pre, ?_, ?_⟩
        · simp [sweepTrace, hpre]
        · simp [hmem]

/-- C10: with duplicate ids in the registry, `get(id)` returns the first
record bearing the id in load order, while the status map that
`persistStatuses` overlays is built with later records overwriting earlier
ones, so every disk entry bearing that id receives the status of the last
loaded record with it. -/
theorem c10_duplicate_ids (agents : List Agent) (aid : String) (i : Nat)
    (a : Agent) (ha : agents[i]? = some a) (hid : a.id = JVal.s aid) :
    ((∀ j b, j < i → agents[j]? = some b → b.id ≠ JVal.s aid) →
        getAgent agents aid = some a)
      ∧ ((∀ j b, i < j → agents[j]? = some b → b.id ≠ JVal.s aid) →
          statusLookup agents (JVal.s aid) = some a.status)
      ∧ ((∀ j b, i < j → agents[j]? = some b → b.id ≠ JVal.s aid) →
          ∀ e : Entry, entryGet e "id" = JVal.s aid →
            entryGet (overlayEntry agents e) "status" = a.status) := by
  refine ⟨fun hfirst => getAgent_first agents aid i a ha hid hfirst,
          fun hlast => statusLookup_last agents (JVal.s aid) i a ha hid hlast,
          fun hlast e he => ?_⟩
  have hs : statusLookup agents (entryGet e "id") = some a.status := by
    rw [he]
    exact statusLookup_last agents (JVal.s aid) i a ha hid hlast
  simp [overlayEntry, hs, entryGet_setKey_self]

/-- C10 witness: two records share id `a` (first healthy, second offline):
`get` returns the first and the persisted overlay carries the second's
status. -/
theorem c10_duplicate_ids_witness :
    getAgent [agentAH, agentA2] "a" = some agentAH
      ∧ statusLookup [agentAH, agentA2] (JVal.s "a") = some (JVal.s "offline")
      ∧ entryGet (overlayEntry [agentAH, agentA2] [("id", JVal.s "a")])
          "status" = JVal.s "offline" :=
  ⟨(c10_duplicate_ids [agentAH, agentA2] "a" 0 agentAH rfl rfl).1
      (fun j b hj _ => absurd hj (Nat.not_lt_zero j)),
   (c10_duplicate_ids [agentAH, agentA2] "a" 1 agentA2 rfl rfl).2.1
      (fun j b hj hb => by
        rcases j with _ | _ | n
        · exact absurd hj (by decide)
        · exact absurd hj (by decide)
        · simp at hb),
   (c10_duplicate_ids [agentAH, agentA2] "a" 1 agentA2 rfl rfl).2.2
      (fun j b hj hb => by
        rcases j with _ | _ | n
        · exact absurd hj (by decide)
        · exact absurd hj (by decide)
        · simp at hb)
      [("id", JVal.s "a")] rfl⟩

end Registry
